import Mathlib

/- Verification of the batched local-kriging Gaussian-process regression
   engine: the single-model solve and variance computations and the sigma-sq
   estimator of `MuyGPyS/gp/muygps.py`, the multivariate dispatch and fast
   regression of `MuyGPyS/gp/multivariate_muygps.py`, and the hyperparameter
   optimization query.  Matrices and vectors are rational-valued; shapes are
   tracked with `Fin` index types. -/

open Matrix

/-- The external solve primitive `np.linalg.solve` applied to an invertible
square system: `solve A b = A⁻¹ b`, with the inverse written via the adjugate
formula `A⁻¹ = det(A)⁻¹ • adj(A)`, which over the field `ℚ` agrees with
Mathlib's nonsingular inverse.  On a singular matrix numpy raises
`LinAlgError`; the spec treats that as a precondition violation, and every
theorem below assumes a nonzero determinant where a solve occurs. -/
def matInv {k : ℕ} (A : Matrix (Fin k) (Fin k) ℚ) : Matrix (Fin k) (Fin k) ℚ :=
  (A.det)⁻¹ • A.adjugate

/-- Embedding of `MuyGPS._compute_solve` (`MuyGPyS/gp/muygps.py` lines 64-91):
for each batch element `i`, perturb the kernel block `K i` by `eps` times the identity,
solve the perturbed system against the neighborhood targets, and contract the
solution with the crosswise row `Kcross i`:
`responses = Kcross.reshape(b,1,k) @ solve(K + eps*eye(k), batch_targets)`. -/
def compute_solve {b k r : ℕ} (eps : ℚ)
    (K : Fin b → Matrix (Fin k) (Fin k) ℚ)
    (Kcross : Fin b → Fin k → ℚ)
    (batch_targets : Fin b → Matrix (Fin k) (Fin r) ℚ) :
    Fin b → Fin r → ℚ :=
  fun i => Matrix.vecMul (Kcross i) (matInv (K i + eps • 1) * batch_targets i)

/-- Embedding of `MuyGPS._compute_diagonal_variance` (`MuyGPyS/gp/muygps.py`
lines 93-122): for each batch element `i`,
`1 - Kcross[i,:] @ solve(K[i,:,:] + eps*eye(k), Kcross[i,:])`. -/
def compute_diagonal_variance {b k : ℕ} (eps : ℚ)
    (K : Fin b → Matrix (Fin k) (Fin k) ℚ)
    (Kcross : Fin b → Fin k → ℚ) : Fin b → ℚ :=
  fun i =>
    1 - dotProduct (Kcross i) ((matInv (K i + eps • 1)).mulVec (Kcross i))

/-- Embedding of `MuyGPS._get_sigma_sq` (`MuyGPyS/gp/muygps.py` lines
246-276): the value
yielded for neighborhood `j` is `Y_0 @ solve(K[j,:,:] + eps*eye(k), Y_0)`
where `Y_0 = target_col[nn_indices[j,:]]`. -/
def get_sigma_sq {b k t : ℕ} (eps : ℚ)
    (K : Fin b → Matrix (Fin k) (Fin k) ℚ)
    (target_col : Fin t → ℚ)
    (nn_indices : Fin b → Fin k → Fin t) : Fin b → ℚ :=
  fun j =>
    dotProduct (fun l => target_col (nn_indices j l))
      ((matInv (K j + eps • 1)).mulVec (fun l => target_col (nn_indices j l)))

/-- The state of a `MuyGPS` engine relevant to the sigma-sq estimator: the
noise hyperparameter value `eps` and the list of per-response-dimension scale
values `sigma_sq` (the engine holds one hyperparameter object per response
dimension; only the stored values matter here). -/
structure MuyGPSSigma (r : ℕ) where
  eps : ℚ
  sigma_sq : Fin r → ℚ

/-- Embedding of `MuyGPS.sigma_sq_optim` (`MuyGPyS/gp/muygps.py` lines
170-208): for each
response dimension `i`, store
`sum(_get_sigma_sq(K, targets[:, i], nn_indices)) / (nn_count * batch_size)`
into `self.sigma_sq[i]` via `_set_val`.  The Python function body contains no
`return` statement, so the call itself evaluates to `None`; the result pair
carries the mutated engine state together with that returned value, modelled
as an `Option` that is always `none`. -/
def sigma_sq_optim {b k t r : ℕ} (st : MuyGPSSigma r)
    (K : Fin b → Matrix (Fin k) (Fin k) ℚ)
    (nn_indices : Fin b → Fin k → Fin t)
    (targets : Fin t → Fin r → ℚ) :
    MuyGPSSigma r × Option (Fin r → ℚ) :=
  ({ st with
      sigma_sq := fun i =>
        (∑ j, get_sigma_sq st.eps K (fun n => targets n i) nn_indices j) /
          ((k : ℚ) * (b : ℚ)) },
   none)

/-- The spec's end-to-end scenario kernel tensor: one batch element whose
3x3 kernel block is the identity. -/
def exK1 : Fin 1 → Matrix (Fin 3) (Fin 3) ℚ := fun _ => 1

/-- The spec's end-to-end scenario crosswise matrix `[0.5, 0.3, 0.1]`. -/
def exKcross1 : Fin 1 → Fin 3 → ℚ := fun _ => ![1/2, 3/10, 1/10]

/-- The spec's end-to-end scenario targets `[[2],[4],[6]]`. -/
def exTargets1 : Fin 1 → Matrix (Fin 3) (Fin 1) ℚ :=
  fun _ => Matrix.of ![![2], ![4], ![6]]

/-- The exact solution of `(I + 1e-5 I) x = [[2],[4],[6]]`. -/
def exX1 : Matrix (Fin 3) (Fin 1) ℚ :=
  Matrix.of ![![200000/100001], ![400000/100001], ![600000/100001]]

/-- The exact solution of `(I + 1e-5 I) x = [0.5, 0.3, 0.1]`. -/
def exX2 : Fin 3 → ℚ := ![50000/100001, 30000/100001, 10000/100001]

/-- Python exceptions observable in the multivariate regression path:
`TypeError` from a positional-argument arity mismatch at a method call, and
`NotImplementedError` raised for an unsupported `variance_mode` (the spec's
`UnsupportedModeError`). -/
inductive PyError where
  | typeError
  | notImplementedError
deriving DecidableEq

/-- Python positional call semantics: a call supplying `arg_count` positional
arguments to a function declared with `param_count` parameters (`self`
excluded on both sides) runs the body only when the counts agree, and raises
`TypeError` otherwise. -/
def pyCall {α : Type} (param_count arg_count : ℕ) (body : α) :
    Except PyError α :=
  if arg_count = param_count then Except.ok body
  else Except.error PyError.typeError

/-- Parameter count of `MuyGPS._compute_solve(self, K, Kcross, batch_targets)`
(`MuyGPyS/gp/muygps.py` line 64), excluding `self`. -/
def compute_solve_param_count : ℕ := 3

/-- Positional argument count of the call
`model._compute_solve(K, Kcross, batch_nn_targets[:, :, i].reshape(...),
model.eps())` in `MultivariateMuyGPS._regress`
(`MuyGPyS/gp/multivariate_muygps.py` lines 330-335). -/
def mm_solve_arg_count : ℕ := 4

/-- Parameter count of `MuyGPS._compute_diagonal_variance(self, K, Kcross)`
(`MuyGPyS/gp/muygps.py` line 93), excluding `self`. -/
def compute_diag_param_count : ℕ := 2

/-- Positional argument count of the call
`model._compute_diagonal_variance(K, Kcross, model.eps())` in
`MultivariateMuyGPS._regress` (`MuyGPyS/gp/multivariate_muygps.py`
lines 343-345). -/
def mm_diag_arg_count : ℕ := 3

/-- Modelled from the spec: the kernel functor contract of one per-dimension
model (the kernel classes live in the absent `MuyGPyS.gp.kernels` module) — a
black-box shape-preserving map from a distance block to a covariance block,
applied batch-element-wise, plus the model's noise hyperparameter value. -/
structure ModelF (k : ℕ) where
  kernelPair : Matrix (Fin k) (Fin k) ℚ → Matrix (Fin k) (Fin k) ℚ
  kernelCross : (Fin k → ℚ) → (Fin k → ℚ)
  eps : ℚ

/-- Modelled from the spec: the shared `SigmaSq` scale parameter of the
multivariate engine (its class lives in the absent `MuyGPyS.gp.kernels`
module) — one value per response dimension plus a `trained` flag; calling the
object returns the value vector. -/
structure SigmaSqState (r : ℕ) where
  value : Fin r → ℚ
  trained : Bool

/-- Safe positional indexing of a length-`r` vector by a loop counter.  Every
claim exercises it only in range (the multivariate class invariant makes the
models list and the response dimension agree); Python would raise `IndexError`
out of range, a case no theorem below depends on. -/
def natIdx {r : ℕ} (v : Fin r → ℚ) (i : ℕ) : ℚ :=
  if h : i < r then v ⟨i, h⟩ else 0

/-- Shallow embedding of `mm.assign(M, col, slice(None), i)` on a
`(batch, response)` matrix: overwrite column `i` with `col`.  A column index
out of range leaves the matrix unchanged (Python would raise `IndexError`, a
case no theorem below depends on). -/
def assignCol {b r : ℕ} (M : Fin b → Fin r → ℚ) (col : Fin b → ℚ) (i : ℕ) :
    Fin b → Fin r → ℚ :=
  fun x j => if j.val = i then col x else M x j

/-- Return value of the single-model `MuyGPS.regress`: the responses alone, or
the pair of responses and a diagonal variance vector. -/
inductive SingleRegressResult (b r : ℕ) where
  | meanOnly (responses : Fin b → Fin r → ℚ)
  | withVariance (responses : Fin b → Fin r → ℚ) (variance : Fin b → ℚ)
deriving DecidableEq

/-- Embedding of `MuyGPS.regress` (`MuyGPyS/gp/muygps.py` lines 124-168): the
mean solve is computed first (line 159), and then `variance_mode` is
dispatched — `None` returns the responses, `"diagonal"` the pair, and any
other value raises `NotImplementedError`. -/
def muygps_regress {b k r : ℕ} (eps : ℚ)
    (K : Fin b → Matrix (Fin k) (Fin k) ℚ)
    (Kcross : Fin b → Fin k → ℚ)
    (batch_targets : Fin b → Matrix (Fin k) (Fin r) ℚ)
    (variance_mode : Option String) :
    Except PyError (SingleRegressResult b r) :=
  let responses := compute_solve eps K Kcross batch_targets
  match variance_mode with
  | none => Except.ok (SingleRegressResult.meanOnly responses)
  | some s =>
    if s = "diagonal" then
      Except.ok (SingleRegressResult.withVariance responses
        (compute_diagonal_variance eps K Kcross))
    else Except.error PyError.notImplementedError

/-- Return value of the multivariate `regress`: responses alone, or the pair
of `(batch, response)` responses and diagonal-variance matrices. -/
inductive MMRegressResult (b r : ℕ) where
  | meanOnly (responses : Fin b → Fin r → ℚ)
  | withVariance (responses : Fin b → Fin r → ℚ) (variance : Fin b → Fin r → ℚ)
deriving DecidableEq

/-- Embedding of the model loop of `MultivariateMuyGPS._regress`
(`MuyGPyS/gp/multivariate_muygps.py` lines 325-349): for each model, realize
`K` and `Kcross` via its kernel, call `model._compute_solve` with four
positional arguments (against its three-parameter definition) to fill column
`idx` of the responses, and in diagonal mode call
`model._compute_diagonal_variance` with three positional arguments (against
its two-parameter definition), scaling by `sigma_sq()[idx]` exactly when
`apply_sigma_sq` holds.  Arity mismatches surface as `TypeError` through
`pyCall`. -/
def mm_regress_loop {b k r : ℕ} (pd : Fin b → Matrix (Fin k) (Fin k) ℚ)
    (cd : Fin b → Fin k → ℚ) (tg : Fin b → Fin k → Fin r → ℚ)
    (sig : SigmaSqState r) (diag : Bool) (applySS : Bool) :
    List (ModelF k) → ℕ → (Fin b → Fin r → ℚ) → (Fin b → Fin r → ℚ) →
    Except PyError ((Fin b → Fin r → ℚ) × (Fin b → Fin r → ℚ))
  | [], _, responses, variance => Except.ok (responses, variance)
  | m :: rest, idx, responses, variance =>
    let Kb := fun x => m.kernelPair (pd x)
    let Kcb := fun x => m.kernelCross (cd x)
    match pyCall compute_solve_param_count mm_solve_arg_count
        (fun x => compute_solve m.eps Kb Kcb
          (fun y => Matrix.of fun l (_ : Fin 1) => natIdx (tg y l) idx) x 0) with
    | Except.error e => Except.error e
    | Except.ok respCol =>
      let responses := assignCol responses respCol idx
      if diag then
        match pyCall compute_diag_param_count mm_diag_arg_count
            (compute_diagonal_variance m.eps Kb Kcb) with
        | Except.error e => Except.error e
        | Except.ok varCol =>
          let ss := if applySS then natIdx sig.value idx else 1
          mm_regress_loop pd cd tg sig diag applySS rest (idx + 1)
            responses (assignCol variance (fun x => varCol x * ss) idx)
      else
        mm_regress_loop pd cd tg sig diag applySS rest (idx + 1)
          responses variance

/-- Embedding of `MultivariateMuyGPS._regress`
(`MuyGPyS/gp/multivariate_muygps.py` lines 305-359): the `variance_mode`
check runs before the model loop — `None` and `"diagonal"` proceed, any other
value raises `NotImplementedError` — and then the loop fills the
zero-initialized output matrices column by column. -/
def mm_regress_helper {b k r : ℕ} (models : List (ModelF k))
    (pd : Fin b → Matrix (Fin k) (Fin k) ℚ) (cd : Fin b → Fin k → ℚ)
    (tg : Fin b → Fin k → Fin r → ℚ) (sig : SigmaSqState r)
    (variance_mode : Option String) (applySS : Bool) :
    Except PyError (MMRegressResult b r) :=
  match variance_mode with
  | none =>
    match mm_regress_loop pd cd tg sig false applySS models 0
        (fun _ _ => 0) (fun _ _ => 0) with
    | Except.error e => Except.error e
    | Except.ok p => Except.ok (MMRegressResult.meanOnly p.1)
  | some s =>
    if s = "diagonal" then
      match mm_regress_loop pd cd tg sig true applySS models 0
          (fun _ _ => 0) (fun _ _ => 0) with
      | Except.error e => Except.error e
      | Except.ok p => Except.ok (MMRegressResult.withVariance p.1 p.2)
    else Except.error PyError.notImplementedError

/-- Embedding of `MultivariateMuyGPS.regress`
(`MuyGPyS/gp/multivariate_muygps.py` lines 205-303): delegate to `_regress`
with `apply_sigma_sq := apply_sigma_sq and self.sigma_sq.trained`. -/
def mm_regress_method {b k r : ℕ} (models : List (ModelF k))
    (sig : SigmaSqState r) (pd : Fin b → Matrix (Fin k) (Fin k) ℚ)
    (cd : Fin b → Fin k → ℚ) (tg : Fin b → Fin k → Fin r → ℚ)
    (variance_mode : Option String) (apply_sigma_sq : Bool) :
    Except PyError (MMRegressResult b r) :=
  mm_regress_helper models pd cd tg sig variance_mode
    (apply_sigma_sq && sig.trained)

/-- Type of the external tensor-construction collaborator
`_make_regress_tensors` (absent `MuyGPyS._src.gp.distance` module): from the
metric name, batch indices, neighbor indices, test/train features and targets
it produces `(crosswise_dists, pairwise_dists, batch_nn_targets)`. -/
def TensorMaker (b k r tc tn f : ℕ) : Type :=
  String → (Fin b → Fin tc) → (Fin b → Fin k → Fin tn) →
  (Fin tc → Fin f → ℚ) → (Fin tn → Fin f → ℚ) → (Fin tn → Fin r → ℚ) →
  ((Fin b → Fin k → ℚ) × (Fin b → Matrix (Fin k) (Fin k) ℚ) ×
    (Fin b → Fin k → Fin r → ℚ))

/-- Return value of `MultivariateMuyGPS.regress_from_indices`: the regression
result, optionally together with the constructed crosswise and pairwise
distance tensors when `return_distances` is requested. -/
inductive FromIndicesResult (b k r : ℕ) where
  | plain (x : MMRegressResult b r)
  | withDists (x : MMRegressResult b r) (cd : Fin b → Fin k → ℚ)
      (pd : Fin b → Matrix (Fin k) (Fin k) ℚ)

/-- Embedding of `MultivariateMuyGPS.regress_from_indices`
(`MuyGPyS/gp/multivariate_muygps.py` lines 100-203) outside MPI mode: build
`(crosswise_dists, pairwise_dists, batch_nn_targets)` with the external
collaborator, call `self.regress` on them with the same `variance_mode` and
`apply_sigma_sq`, and return the result, appending the distance tensors when
`return_distances` is set. -/
def mm_regress_from_indices {b k r tc tn f : ℕ} (models : List (ModelF k))
    (sig : SigmaSqState r) (make_tensors : TensorMaker b k r tc tn f)
    (metric : String) (indices : Fin b → Fin tc)
    (nn_indices : Fin b → Fin k → Fin tn)
    (test : Fin tc → Fin f → ℚ) (train : Fin tn → Fin f → ℚ)
    (targets : Fin tn → Fin r → ℚ)
    (variance_mode : Option String) (apply_sigma_sq : Bool)
    (return_distances : Bool) :
    Except PyError (FromIndicesResult b k r) :=
  let t := make_tensors metric indices nn_indices test train targets
  match mm_regress_method models sig t.2.1 t.1 t.2.2 variance_mode
      apply_sigma_sq with
  | Except.error e => Except.error e
  | Except.ok x =>
    if return_distances then
      Except.ok (FromIndicesResult.withDists x t.1 t.2.1)
    else Except.ok (FromIndicesResult.plain x)

/-- Modelled from the spec: the right-hand side of the equivalence contract
of `regress_from_indices` — "first constructing
`(crosswise_dists, pairwise_dists, batch_nn_targets)` with the external
tensor-construction collaborator on the same inputs and then calling
`regress` directly on those tensors with the same `variance_mode` and
`apply_sigma_sq`". -/
def external_then_regress {b k r tc tn f : ℕ} (models : List (ModelF k))
    (sig : SigmaSqState r) (make_tensors : TensorMaker b k r tc tn f)
    (metric : String) (indices : Fin b → Fin tc)
    (nn_indices : Fin b → Fin k → Fin tn)
    (test : Fin tc → Fin f → ℚ) (train : Fin tn → Fin f → ℚ)
    (targets : Fin tn → Fin r → ℚ)
    (variance_mode : Option String) (apply_sigma_sq : Bool) :
    Except PyError (MMRegressResult b r) :=
  let t := make_tensors metric indices nn_indices test train targets
  mm_regress_method models sig t.2.1 t.1 t.2.2 variance_mode apply_sigma_sq

/-- Shallow embedding of `mm.assign(T, col, slice(None), slice(None), i)` on a
`(batch, nn, response)` tensor: overwrite response slice `i`.  In the numpy
backend (absent `MuyGPyS._src.math` implementation) `assign` writes in place,
per the spec's description of the in-place column-assign pattern; the updated
tensor is threaded through explicitly here. -/
def assignKcross {b k r : ℕ} (acc : Fin b → Fin k → Fin r → ℚ)
    (col : Fin b → Fin k → ℚ) (i : ℕ) : Fin b → Fin k → Fin r → ℚ :=
  fun x y j => if j.val = i then col x y else acc x y j

/-- Embedding of the `Kcross`-building loop of
`MultivariateMuyGPS._fast_regress` (`MuyGPyS/gp/multivariate_muygps.py` lines
547-562): starting from a zero tensor, write each model's kernel realization
of the crosswise distances into its response slice. -/
def buildKcross {b k r : ℕ} (cd : Fin b → Fin k → ℚ) :
    List (ModelF k) → ℕ → (Fin b → Fin k → Fin r → ℚ) →
    (Fin b → Fin k → Fin r → ℚ)
  | [], _, acc => acc
  | m :: rest, i, acc =>
    buildKcross cd rest (i + 1)
      (assignKcross acc (fun x => m.kernelCross (cd x)) i)

/-- Embedding of `MultivariateMuyGPS._fast_regress` with the final solve
`_mmuygps_fast_regress_solve` modelled from the spec (its
`MuyGPyS._src.gp.muygps` module is absent): per batch element and response
dimension, the batched dot product of the assembled `Kcross` tensor slice
with the matching precomputed coefficient slice — no linear solve occurs. -/
def mm_fast_regress {b k r : ℕ} (models : List (ModelF k))
    (cd : Fin b → Fin k → ℚ) (coeffs : Fin b → Fin k → Fin r → ℚ) :
    Fin b → Fin r → ℚ :=
  fun x j => ∑ l, buildKcross cd models 0 (fun _ _ _ => 0) x l j * coeffs x l j

/-- Embedding of `MultivariateMuyGPS.fast_regress_from_indices`
(`MuyGPyS/gp/multivariate_muygps.py` lines 435-503): build the crosswise
distance matrix with the external `crosswise_distances` collaborator (absent
`MuyGPyS.gp.distance` module, abstracted as a parameter), gather the
coefficient blocks of each batch element's closest training point by numpy
fancy indexing `coeffs_tensor[closest_index, :, :]`, and delegate to
`fast_regress`. -/
def mm_fast_regress_from_indices {b k r tc tn f : ℕ} (models : List (ModelF k))
    (crosswise_distances : (Fin tc → Fin f → ℚ) → (Fin tn → Fin f → ℚ) →
      (Fin b → Fin tc) → (Fin b → Fin k → Fin tn) → (Fin b → Fin k → ℚ))
    (test_features : Fin tc → Fin f → ℚ) (train_features : Fin tn → Fin f → ℚ)
    (indices : Fin b → Fin tc) (nn_indices : Fin b → Fin k → Fin tn)
    (closest_index : Fin b → Fin tn)
    (coeffs_tensor : Fin tn → Fin k → Fin r → ℚ) : Fin b → Fin r → ℚ :=
  mm_fast_regress models
    (crosswise_distances test_features train_features indices nn_indices)
    (fun x => coeffs_tensor (closest_index x))

/-- Modelled from the spec: hyperparameter bounds — either the "fixed"
sentinel or a `(lower, upper)` interval (the `Hyperparameter` class lives in
the absent `MuyGPyS.gp.kernels` module). -/
inductive HPBounds where
  | fixed
  | interval (lo hi : ℚ)
deriving DecidableEq

/-- Modelled from the spec: a hyperparameter is a value together with its
bounds. -/
structure Hyperparam where
  val : ℚ
  bounds : HPBounds
deriving DecidableEq

/-- Embedding of the `get_bounds() == "fixed"` test of
`MuyGPS.get_optim_params` and the `fixed()` query of
`BenchmarkGP.get_optim_params` (`MuyGPyS/_test/gp.py` lines 170-193). -/
def Hyperparam.isFixed (h : Hyperparam) : Bool :=
  match h.bounds with
  | HPBounds.fixed => true
  | HPBounds.interval _ _ => false

/-- Engine state visible to `get_optim_params`: the kernel's named
hyperparameters plus the separately held noise hyperparameter `eps`. -/
structure GPParams where
  kernel_hyperparameters : List (String × Hyperparam)
  eps : Hyperparam

/-- Embedding of `MuyGPS.get_optim_params` (`MuyGPyS/gp/muygps.py` lines
54-62): keep the kernel hyperparameters whose bounds are not the "fixed"
sentinel, then append `eps` under the key `"eps"` when it is not fixed. -/
def get_optim_params (st : GPParams) : List (String × Hyperparam) :=
  (st.kernel_hyperparameters.filter fun p => !(p.2.isFixed)) ++
    (if st.eps.isFixed then [] else [("eps", st.eps)])

/-- Modelled from the spec: one `_set`-style hyperparameter mutation — a
target name, an optional replacement value (`_set_val`) and an optional
replacement bound pair, existing fields kept as defaults. -/
structure HPMutation where
  name : String
  newVal : Option ℚ
  newBounds : Option HPBounds

/-- Application of one mutation to one hyperparameter: replace the fields the
mutation carries, keep the rest. -/
def applyToHP (m : HPMutation) (h : Hyperparam) : Hyperparam :=
  { val := m.newVal.getD h.val, bounds := m.newBounds.getD h.bounds }

/-- Application of one mutation to the engine state: rewrite the kernel
hyperparameters whose name matches, and `eps` when the name is `"eps"`. -/
def applyMutation (st : GPParams) (m : HPMutation) : GPParams :=
  { kernel_hyperparameters :=
      st.kernel_hyperparameters.map fun p =>
        if p.1 = m.name then (p.1, applyToHP m p.2) else p,
    eps := if m.name = "eps" then applyToHP m st.eps else st.eps }

/-- Sequential application of a list of mutations. -/
def applyMutations (st : GPParams) (ms : List HPMutation) : GPParams :=
  ms.foldl applyMutation st

/-- Concrete one-dimensional model with identity kernels, for the evaluation
theorems about the broken multivariate call path. -/
def exModelF : ModelF 1 :=
  { kernelPair := id, kernelCross := id, eps := 0 }

/-- Concrete one-batch pairwise distance tensor. -/
def exPd1 : Fin 1 → Matrix (Fin 1) (Fin 1) ℚ := fun _ => 1

/-- Concrete one-batch crosswise distance matrix. -/
def exCd1 : Fin 1 → Fin 1 → ℚ := fun _ _ => 0

/-- Concrete one-batch, one-response target tensor. -/
def exTg1 : Fin 1 → Fin 1 → Fin 1 → ℚ := fun _ _ _ => 2

/-- Untrained shared scale state. -/
def exSigUntrained : SigmaSqState 1 := { value := fun _ => 1, trained := false }

/-- Trained shared scale state with value 7. -/
def exSigTrained : SigmaSqState 1 := { value := fun _ => 7, trained := true }

/-- First model of the two-dimensional permutation scenario. -/
def exModelA : ModelF 1 := { kernelPair := id, kernelCross := id, eps := 0 }

/-- Second model of the two-dimensional permutation scenario, with a distinct
kernel and noise value. -/
def exModelB : ModelF 1 :=
  { kernelPair := fun M => M, kernelCross := fun v l => 2 * v l, eps := 1 }

/-- Two-response target tensor with distinct columns. -/
def exTg2 : Fin 1 → Fin 1 → Fin 2 → ℚ := fun _ _ j => if j = 0 then 3 else 5

/-- The same target tensor with its response columns swapped. -/
def exTg2Swapped : Fin 1 → Fin 1 → Fin 2 → ℚ :=
  fun _ _ j => if j = 0 then 5 else 3

/-- Untrained two-dimensional shared scale state. -/
def exSig2 : SigmaSqState 2 := { value := fun _ => 1, trained := false }

/-- Concrete model for the fast-regression witness: the kernel adds one to
each crosswise distance. -/
def exCModel : ModelF 1 :=
  { kernelPair := id, kernelCross := fun v l => v l + 1, eps := 0 }

/-- Concrete crosswise-distance collaborator returning the constant 5. -/
def exCrosswiseFn : (Fin 1 → Fin 1 → ℚ) → (Fin 1 → Fin 1 → ℚ) →
    (Fin 1 → Fin 1) → (Fin 1 → Fin 1 → Fin 1) → (Fin 1 → Fin 1 → ℚ) :=
  fun _ _ _ _ => fun _ _ => 5

/-- Concrete precomputed coefficient tensor with constant entry 2. -/
def exCoeffs : Fin 1 → Fin 1 → Fin 1 → ℚ := fun _ _ _ => 2

/-- Concrete feature matrix used wherever a feature input is required. -/
def exFeat1 : Fin 1 → Fin 1 → ℚ := fun _ _ => 0

/-- Concrete fixed hyperparameter (the `nu` of the spec's examples). -/
def exHPFixed : Hyperparam := { val := 67/100, bounds := HPBounds.fixed }

/-- Concrete free hyperparameter with bounds `(0, 10)`. -/
def exHPFree : Hyperparam := { val := 1, bounds := HPBounds.interval 0 10 }

/-- Concrete engine state: fixed `nu`, free `length_scale`, free `eps`. -/
def exGPState : GPParams :=
  { kernel_hyperparameters := [("nu", exHPFixed), ("length_scale", exHPFree)],
    eps := exHPFree }

/-- Concrete mutation sequence touching `length_scale` and `eps` but never
`nu`. -/
def exMutations : List HPMutation :=
  [{ name := "length_scale", newVal := some 2, newBounds := none },
   { name := "eps", newVal := some (3/1000),
     newBounds := some (HPBounds.interval 0 1) }]

/-- Concrete sigma-sq-estimator engine state with `eps = 1`. -/
def exSigmaEngine : MuyGPSSigma 1 := { eps := 1, sigma_sq := fun _ => 1 }

/-- Concrete kernel tensor for the sigma-sq evaluation: one `1x1` identity
block. -/
def exK5 : Fin 1 → Matrix (Fin 1) (Fin 1) ℚ := fun _ => 1

/-- Concrete neighbor indices for the sigma-sq evaluation. -/
def exNn5 : Fin 1 → Fin 1 → Fin 1 := fun _ _ => 0

/-- Concrete training targets for the sigma-sq evaluation. -/
def exTargets5 : Fin 1 → Fin 1 → ℚ := fun _ _ => 3

theorem matInv_eq_inv {k : ℕ} (A : Matrix (Fin k) (Fin k) ℚ) :
    matInv A = A⁻¹ := by
  rw [matInv, Matrix.inv_def, Ring.inverse_eq_inv]

/-- Claim C1: for every kernel tensor, crosswise matrix, target tensor and noise
value, the single-model solve returns, for each batch element `i`
independently, `Kcross i @ x` where `x` solves `(K i + eps*I) x = targets i`. -/
theorem compute_solve_solves {b k r : ℕ} (eps : ℚ)
    (K : Fin b → Matrix (Fin k) (Fin k) ℚ)
    (Kcross : Fin b → Fin k → ℚ)
    (batch_targets : Fin b → Matrix (Fin k) (Fin r) ℚ)
    (i : Fin b) (x : Matrix (Fin k) (Fin r) ℚ)
    (hdet : (K i + eps • 1).det ≠ 0)
    (hx : (K i + eps • 1) * x = batch_targets i) :
    compute_solve eps K Kcross batch_targets i = Matrix.vecMul (Kcross i) x := by
  have hu : IsUnit (K i + eps • 1).det := isUnit_iff_ne_zero.mpr hdet
  have hsol : matInv (K i + eps • 1) * batch_targets i = x := by
    rw [matInv_eq_inv, ← hx, ← Matrix.mul_assoc,
      Matrix.nonsing_inv_mul _ hu, Matrix.one_mul]
  simp only [compute_solve, hsol]

/-- Witness for C1: the spec's end-to-end scenario, with `k = 3`,
`eps = 1e-5`, the identity kernel, `Kcross = [0.5, 0.3, 0.1]` and targets
`[[2],[4],[6]]`, yields exactly `2.8 / (1 + 1e-5) = 280000/100001`. -/
theorem compute_solve_solves_witness :
    compute_solve (1/100000) exK1 exKcross1 exTargets1 0 =
      fun _ => 280000/100001 := by
  have hdet : ((exK1 0 + (1/100000 : ℚ) • 1 :
      Matrix (Fin 3) (Fin 3) ℚ)).det ≠ 0 := by
    simp [exK1, Matrix.det_fin_three, Matrix.add_apply, Matrix.smul_apply,
      Matrix.one_apply]
    norm_num
  have hx : (exK1 0 + (1/100000 : ℚ) • 1) * exX1 = exTargets1 0 := by
    ext i j
    fin_cases i <;> fin_cases j <;>
      simp [exK1, exX1, exTargets1, Matrix.mul_apply, Fin.sum_univ_three,
        Matrix.add_apply, Matrix.smul_apply, Matrix.one_apply] <;>
      norm_num
  rw [compute_solve_solves (1/100000) exK1 exKcross1 exTargets1 0 exX1 hdet hx]
  funext j
  fin_cases j
  simp [exKcross1, exX1, Matrix.vecMul, dotProduct, Fin.sum_univ_three]
  norm_num

/-- Claim C2: the diagonal-variance computation returns, for each batch element
`i`, `1 - Kcross i @ x` where `x` solves `(K i + eps*I) x = Kcross i`. -/
theorem compute_diagonal_variance_formula {b k : ℕ} (eps : ℚ)
    (K : Fin b → Matrix (Fin k) (Fin k) ℚ)
    (Kcross : Fin b → Fin k → ℚ)
    (i : Fin b) (x : Fin k → ℚ)
    (hdet : (K i + eps • 1).det ≠ 0)
    (hx : (K i + eps • 1).mulVec x = Kcross i) :
    compute_diagonal_variance eps K Kcross i = 1 - dotProduct (Kcross i) x := by
  have hu : IsUnit (K i + eps • 1).det := isUnit_iff_ne_zero.mpr hdet
  have hsol : (matInv (K i + eps • 1)).mulVec (Kcross i) = x := by
    rw [matInv_eq_inv, ← hx, Matrix.mulVec_mulVec,
      Matrix.nonsing_inv_mul _ hu, Matrix.one_mulVec]
  simp only [compute_diagonal_variance, hsol]

/-- Witness for C2: in the identity-kernel scenario with
`Kcross = [0.5, 0.3, 0.1]` and `eps = 1e-5`, the variance is exactly
`1 - 0.35/(1 + 1e-5) = 65001/100001`, approximately `0.65`. -/
theorem compute_diagonal_variance_formula_witness :
    compute_diagonal_variance (1/100000) exK1 exKcross1 0 = 65001/100001 := by
  have hdet : ((exK1 0 + (1/100000 : ℚ) • 1 :
      Matrix (Fin 3) (Fin 3) ℚ)).det ≠ 0 := by
    simp [exK1, Matrix.det_fin_three, Matrix.add_apply, Matrix.smul_apply,
      Matrix.one_apply]
    norm_num
  have hx : (exK1 0 + (1/100000 : ℚ) • 1).mulVec exX2 = exKcross1 0 := by
    funext i
    fin_cases i <;>
      simp [exK1, exX2, exKcross1, Matrix.mulVec, dotProduct,
        Fin.sum_univ_three, Matrix.add_apply, Matrix.smul_apply,
        Matrix.one_apply] <;>
      norm_num
  rw [compute_diagonal_variance_formula (1/100000) exK1 exKcross1 0 exX2
    hdet hx]
  simp [exKcross1, exX2, dotProduct, Fin.sum_univ_three]
  norm_num

/-- Claim C3, counterexample to the universal quantification over the
variance mode: at an explicit concrete input with `variance_mode = "median"`,
the multivariate regress raises `NotImplementedError` from the eager mode
check, not the `TypeError` the claim asserts for every variance mode. -/
theorem mm_regress_invalid_mode_not_type_error :
    mm_regress_method [exModelF] exSigUntrained exPd1 exCd1 exTg1
        (some "median") true = Except.error PyError.notImplementedError ∧
      (Except.error PyError.notImplementedError :
          Except PyError (MMRegressResult 1 1)) ≠
        Except.error PyError.typeError := by
  exact ⟨rfl, by simp⟩

/-- Claim C3, amended: for every input whose variance mode is supported
(`None` or `"diagonal"`), the multivariate regress of a constructed engine
(nonempty model list) raises `TypeError` before producing any result, because
`_regress` invokes the three-parameter `MuyGPS._compute_solve` with four
positional arguments; unsupported modes raise `NotImplementedError` first,
so the multivariate mean/variance path can never complete. -/
theorem mm_regress_supported_modes_type_error {b k r : ℕ}
    (models : List (ModelF k)) (hne : models ≠ [])
    (sig : SigmaSqState r) (pd : Fin b → Matrix (Fin k) (Fin k) ℚ)
    (cd : Fin b → Fin k → ℚ) (tg : Fin b → Fin k → Fin r → ℚ)
    (variance_mode : Option String)
    (hmode : variance_mode = none ∨ variance_mode = some "diagonal")
    (apply_sigma_sq : Bool) :
    mm_regress_method models sig pd cd tg variance_mode apply_sigma_sq =
      Except.error PyError.typeError := by
  obtain ⟨m, rest, rfl⟩ : ∃ m rest, models = m :: rest := by
    cases models with
    | nil => exact absurd rfl hne
    | cons m rest => exact ⟨m, rest, rfl⟩
  rcases hmode with h | h <;> subst h <;>
    simp [mm_regress_method, mm_regress_helper, mm_regress_loop, pyCall,
      compute_solve_param_count, mm_solve_arg_count]

/-- Witness for the amended C3: a concrete one-model diagonal-free call
raises `TypeError`. -/
theorem mm_regress_supported_modes_type_error_witness :
    mm_regress_method [exModelF] exSigUntrained exPd1 exCd1 exTg1 none true =
      Except.error PyError.typeError :=
  mm_regress_supported_modes_type_error [exModelF]
    (List.cons_ne_nil exModelF []) exSigUntrained exPd1 exCd1 exTg1 none
    (Or.inl rfl) true

/-- Claim C4, counterexample: at an explicit concrete multivariate call with
`variance_mode = None`, no responses are returned — the call fails with
`TypeError` — contradicting "if variance_mode is None only the responses are
returned" for the multivariate engine. -/
theorem mm_regress_none_mode_returns_no_responses :
    mm_regress_method [exModelF] exSigUntrained exPd1 exCd1 exTg1 none false =
      Except.error PyError.typeError := by
  rfl

/-- Claim C4, amended: the single-model regress returns only the responses
when `variance_mode` is `None`, the (responses, diagonal variance) pair when
`"diagonal"`, and fails with the unsupported-mode error for any other value;
the multivariate regress likewise fails with the unsupported-mode error for
any unrecognized mode, raised by a check that precedes the per-dimension loop
(the error is the mode error and not the loop's `TypeError`), while its
supported-mode path fails with `TypeError` as in C3. -/
theorem regress_mode_dispatch_amended {b k r b2 k2 r2 : ℕ} (eps : ℚ)
    (K : Fin b → Matrix (Fin k) (Fin k) ℚ) (Kcross : Fin b → Fin k → ℚ)
    (batch_targets : Fin b → Matrix (Fin k) (Fin r) ℚ)
    (models : List (ModelF k2)) (sig : SigmaSqState r2)
    (pd : Fin b2 → Matrix (Fin k2) (Fin k2) ℚ) (cd : Fin b2 → Fin k2 → ℚ)
    (tg : Fin b2 → Fin k2 → Fin r2 → ℚ) (apply_sigma_sq : Bool) :
    muygps_regress eps K Kcross batch_targets none =
        Except.ok (SingleRegressResult.meanOnly
          (compute_solve eps K Kcross batch_targets)) ∧
      muygps_regress eps K Kcross batch_targets (some "diagonal") =
        Except.ok (SingleRegressResult.withVariance
          (compute_solve eps K Kcross batch_targets)
          (compute_diagonal_variance eps K Kcross)) ∧
      (∀ s : String, s ≠ "diagonal" →
        muygps_regress eps K Kcross batch_targets (some s) =
          Except.error PyError.notImplementedError) ∧
      (∀ s : String, s ≠ "diagonal" →
        mm_regress_method models sig pd cd tg (some s) apply_sigma_sq =
          Except.error PyError.notImplementedError) := by
  refine ⟨rfl, by simp [muygps_regress], ?_, ?_⟩
  · intro s hs
    simp [muygps_regress, hs]
  · intro s hs
    simp [mm_regress_method, mm_regress_helper, hs]

/-- Witness for the amended C4: concrete instances of the `None`-mode return
and of the eager multivariate unsupported-mode error. -/
theorem regress_mode_dispatch_amended_witness :
    muygps_regress (1/100000) exK1 exKcross1 exTargets1 none =
        Except.ok (SingleRegressResult.meanOnly
          (compute_solve (1/100000) exK1 exKcross1 exTargets1)) ∧
      mm_regress_method [exModelF] exSigUntrained exPd1 exCd1 exTg1
        (some "variance") true = Except.error PyError.notImplementedError := by
  refine ⟨?_, ?_⟩
  · exact (regress_mode_dispatch_amended (1/100000) exK1 exKcross1 exTargets1
      [exModelF] exSigUntrained exPd1 exCd1 exTg1 true).1
  · exact (regress_mode_dispatch_amended (1/100000) exK1 exKcross1 exTargets1
      [exModelF] exSigUntrained exPd1 exCd1 exTg1 true).2.2.2 "variance"
      (by decide)

/-- Claim C5 (code bug): at a concrete input the sigma-sq estimator stores
the claimed closed-form value
`y^T (K + eps I)⁻¹ y / (nn_count * batch_count) = 9/2` into the engine's
scale parameter, but the call itself returns `None` — the Python function has
no return statement although the claim (and the function's own docstring)
promise the per-dimension scalars as the return value. -/
theorem sigma_sq_optim_returns_none_eval :
    (sigma_sq_optim exSigmaEngine exK5 exNn5 exTargets5).2 = none ∧
      (sigma_sq_optim exSigmaEngine exK5 exNn5 exTargets5).1.sigma_sq =
        fun _ => 9/2 := by
  refine ⟨rfl, ?_⟩
  funext i
  simp [sigma_sq_optim, get_sigma_sq, exSigmaEngine, exK5, exNn5, exTargets5,
    matInv, Matrix.det_fin_one, Matrix.adjugate_fin_one, Matrix.mulVec,
    dotProduct, Fin.sum_univ_one, Matrix.add_apply, Matrix.smul_apply,
    Matrix.one_apply]
  norm_num

/-- Claim C6 (code bug): at a concrete diagonal-mode multivariate call with
`apply_sigma_sq = true` and a trained shared scale vector, no variance —
scaled or unscaled — is returned: the call fails with `TypeError` at the
first per-dimension `_compute_solve` invocation, before the scaling branch
(lines 339-349 of `multivariate_muygps.py`) is ever reached. -/
theorem mm_regress_diagonal_trained_type_error_eval :
    mm_regress_method [exModelF] exSigTrained exPd1 exCd1 exTg1
      (some "diagonal") true = Except.error PyError.typeError := by
  rfl

/-- Claim C7: `regress_from_indices` is numerically identical to first
constructing `(crosswise_dists, pairwise_dists, batch_nn_targets)` with the
external tensor-construction collaborator on the same inputs and then calling
`regress` directly on those tensors with the same `variance_mode` and
`apply_sigma_sq` (with `return_distances` unset, its default). -/
theorem regress_from_indices_equiv {b k r tc tn f : ℕ}
    (models : List (ModelF k)) (sig : SigmaSqState r)
    (make_tensors : TensorMaker b k r tc tn f) (metric : String)
    (indices : Fin b → Fin tc) (nn_indices : Fin b → Fin k → Fin tn)
    (test : Fin tc → Fin f → ℚ) (train : Fin tn → Fin f → ℚ)
    (targets : Fin tn → Fin r → ℚ) (variance_mode : Option String)
    (apply_sigma_sq : Bool) :
    mm_regress_from_indices models sig make_tensors metric indices nn_indices
        test train targets variance_mode apply_sigma_sq false =
      (external_then_regress models sig make_tensors metric indices nn_indices
        test train targets variance_mode apply_sigma_sq).map
        FromIndicesResult.plain := by
  cases h : mm_regress_method models sig
      (make_tensors metric indices nn_indices test train targets).2.1
      (make_tensors metric indices nn_indices test train targets).1
      (make_tensors metric indices nn_indices test train targets).2.2
      variance_mode apply_sigma_sq with
  | error e =>
    simp [mm_regress_from_indices, external_then_regress, h, Except.map]
  | ok x =>
    simp [mm_regress_from_indices, external_then_regress, h, Except.map]

/-- Claim C8 (code bug): at a concrete two-dimensional multivariate call, the
regression yields no output to be permutation-equivariant over — both the
original ordering of the per-dimension models and target columns and the
swapped ordering fail with the same `TypeError` from the `_compute_solve`
arity mismatch. -/
theorem mm_regress_permutation_type_error_eval :
    mm_regress_method [exModelA, exModelB] exSig2 exPd1 exCd1 exTg2
        none true = Except.error PyError.typeError ∧
      mm_regress_method [exModelB, exModelA] exSig2 exPd1 exCd1 exTg2Swapped
        none true = Except.error PyError.typeError := by
  exact ⟨rfl, rfl⟩

theorem buildKcross_apply {b k r : ℕ} (cd : Fin b → Fin k → ℚ)
    (models : List (ModelF k)) (i : ℕ) (acc : Fin b → Fin k → Fin r → ℚ)
    (x : Fin b) (y : Fin k) (j : Fin r) :
    buildKcross cd models i acc x y j =
      if h : i ≤ j.val ∧ j.val < i + models.length then
        (models.get ⟨j.val - i, by omega⟩).kernelCross (cd x) y
      else acc x y j := by
  induction models generalizing i acc with
  | nil =>
    rw [buildKcross, dif_neg]
    simp
  | cons m rest ih =>
    rw [buildKcross, ih]
    by_cases h1 : i + 1 ≤ j.val ∧ j.val < i + 1 + rest.length
    · rw [dif_pos h1, dif_pos (by constructor <;> [omega; (simp; omega)])]
      have hidx : j.val - i = (j.val - (i + 1)) + 1 := by omega
      simp only [hidx, List.length_cons, List.get_cons_succ]
    · rw [dif_neg h1]
      by_cases h2 : j.val = i
      · rw [assignKcross, if_pos h2,
          dif_pos (by constructor <;> [omega; (simp; omega)])]
        have hidx : j.val - i = 0 := by omega
        simp only [hidx]
        rfl
      · rw [assignKcross, if_neg h2, dif_neg (by simp; omega)]

/-- Claim C9: fast regression returns, for each batch element `x` and
response dimension `j`, the dot product of the `j`th kernel's evaluation of
the crosswise distances with response slice `j` of the precomputed
coefficient block of the batch element's closest training point,
`responses x = Kcross x @ coeffs[closest_index x]` — no linear solve occurs
at query time. -/
theorem mm_fast_regress_from_indices_formula {b k r tc tn f : ℕ}
    (models : List (ModelF k))
    (crosswise_distances : (Fin tc → Fin f → ℚ) → (Fin tn → Fin f → ℚ) →
      (Fin b → Fin tc) → (Fin b → Fin k → Fin tn) → (Fin b → Fin k → ℚ))
    (test_features : Fin tc → Fin f → ℚ) (train_features : Fin tn → Fin f → ℚ)
    (indices : Fin b → Fin tc) (nn_indices : Fin b → Fin k → Fin tn)
    (closest_index : Fin b → Fin tn)
    (coeffs_tensor : Fin tn → Fin k → Fin r → ℚ)
    (hlen : models.length = r) (x : Fin b) (j : Fin r) :
    mm_fast_regress_from_indices models crosswise_distances test_features
        train_features indices nn_indices closest_index coeffs_tensor x j =
      dotProduct
        ((models.get ⟨j.val, by rw [hlen]; exact j.isLt⟩).kernelCross
          (crosswise_distances test_features train_features indices
            nn_indices x))
        (fun l => coeffs_tensor (closest_index x) l j) := by
  unfold mm_fast_regress_from_indices mm_fast_regress dotProduct
  refine Finset.sum_congr rfl fun l _ => ?_
  rw [buildKcross_apply]
  rw [dif_pos ⟨Nat.zero_le _, by simp [hlen]⟩]
  simp only [Nat.sub_zero]

/-- Witness for C9: a concrete one-dimensional fast regression with crosswise
distance 5, kernel `d + 1` and coefficient 2 returns `(5 + 1) * 2 = 12`. -/
theorem mm_fast_regress_from_indices_formula_witness :
    mm_fast_regress_from_indices [exCModel] exCrosswiseFn exFeat1 exFeat1
        (fun x => x) (fun _ _ => 0) (fun _ => 0) exCoeffs 0 0 = 12 := by
  rw [mm_fast_regress_from_indices_formula [exCModel] exCrosswiseFn exFeat1
    exFeat1 (fun x => x) (fun _ _ => 0) (fun _ => 0) exCoeffs rfl 0 0]
  simp [exCModel, exCrosswiseFn, exCoeffs, dotProduct, Fin.sum_univ_one]
  norm_num

/-- Claim C10: in every engine state in which the hyperparameter named `p` is
marked fixed, `get_optim_params` never lists `p`, regardless of how many
mutations have been applied to the other hyperparameters beforehand. -/
theorem fixed_hyperparameter_never_optimized (st : GPParams) (p : String)
    (hk : ∀ h, (p, h) ∈ st.kernel_hyperparameters → h.isFixed = true)
    (he : p = "eps" → st.eps.isFixed = true)
    (ms : List HPMutation) (hms : ∀ m ∈ ms, m.name ≠ p) :
    ∀ q ∈ get_optim_params (applyMutations st ms), q.1 ≠ p := by
  induction ms generalizing st with
  | nil =>
    intro q hq hqp
    rw [applyMutations, List.foldl_nil] at hq
    rw [get_optim_params] at hq
    rcases List.mem_append.mp hq with hq1 | hq2
    · obtain ⟨hqmem, hqfree⟩ := List.mem_filter.mp hq1
      have hfixed : q.2.isFixed = true := by
        apply hk
        rw [← hqp, Prod.mk.eta]
        exact hqmem
      simp [hfixed] at hqfree
    · by_cases hf : st.eps.isFixed
      · rw [if_pos hf] at hq2
        exact absurd hq2 (List.not_mem_nil q)
      · rw [if_neg hf] at hq2
        have hq3 := List.mem_singleton.mp hq2
        have hpe : p = "eps" := by rw [← hqp, hq3]
        exact hf (he hpe)
  | cons m rest ih =>
    have hmp : m.name ≠ p := hms m (List.mem_cons_self m rest)
    intro q hq
    rw [applyMutations, List.foldl_cons] at hq
    refine ih (applyMutation st m) ?_ ?_ (fun m2 hm2 => hms m2 (List.mem_cons_of_mem m hm2)) q hq
    · intro h hmem
      rw [applyMutation] at hmem
      obtain ⟨q0, hq0, heq⟩ := List.mem_map.mp hmem
      by_cases hname : q0.1 = m.name
      · rw [if_pos hname] at heq
        have : q0.1 = p := by
          have := congrArg Prod.fst heq
          simpa using this
        exact absurd (this ▸ hname) hmp.symm
      · rw [if_neg hname] at heq
        apply hk
        rw [heq] at hq0
        exact hq0
    · intro hpe
      rw [applyMutation]
      have hne : m.name ≠ "eps" := by rw [← hpe]; exact hmp
      simp only [if_neg hne]
      exact he hpe

/-- Witness for C10: with `nu` fixed, after mutating `length_scale` and `eps`
the optimization-parameter query still omits `nu`. -/
theorem fixed_hyperparameter_never_optimized_witness :
    "nu" ∉ (get_optim_params (applyMutations exGPState exMutations)).map
      Prod.fst := by
  intro hmem
  obtain ⟨q, hq, hq1⟩ := List.mem_map.mp hmem
  refine fixed_hyperparameter_never_optimized exGPState "nu" ?_ ?_
    exMutations ?_ q hq hq1
  · intro h hm
    simp only [exGPState, List.mem_cons, List.not_mem_nil, or_false,
      Prod.mk.injEq] at hm
    rcases hm with ⟨_, h2⟩ | ⟨h1, _⟩
    · subst h2
      rfl
    · exact absurd h1 (by decide)
  · intro hcon
    exact absurd hcon (by decide)
  · intro m hm
    simp only [exMutations, List.mem_cons, List.not_mem_nil, or_false] at hm
    rcases hm with h1 | h1 <;> rw [h1] <;> decide
